import Mathlib

/-
Shallow embedding of the outlook-manager backend synchronization core:
  * src/backend/scheduler.py   (_maybe_refresh_token, _save_emails_from_list,
                                _sync_accounts_for_group, sync_log, new_email_events,
                                _group_offsets)
  * src/backend/outlook_client.py (ProxyError error class and the error surface of
                                the fetch operations, modelled as oracles)
  * src/backend/main.py        (get_notifications drain of new_email_events)
  * src/backend/routes/refresh.py (_do_refresh_one client id selection)

Times (datetime.utcnow etc.) are modelled as integer seconds.  Network calls
(refresh_access_token, fetch_emails, get_unread_count, fetch_emails_imap) are
modelled as oracle functions passed in as parameters: for one per-account sync
each protocol is attempted at most once, so an oracle from the protocol name to
its outcome is an exact model of the sequence of call results.  Date parsing
(dateutil.parser.isoparse) is an uninterpreted function String → Option Int.
-/

namespace OM

/-- Account row, from models.py class Account (defaults mirror the column defaults). -/
structure Account where
  id : Nat
  email : String
  password : String := ""
  client_id : Option String := none
  refresh_token : Option String := none
  access_token : Option String := none
  token_expires_at : Option Int := none
  status : String := "active"
  last_synced : Option Int := none
  unread_count : Option Int := some 0
  last_error : Option String := none
  imap_enabled : Option Bool := none
  pop3_enabled : Option Bool := none
  graph_enabled : Option Bool := none
  remark : Option String := none
  last_refresh_at : Option Int := none
  refresh_status : String := "unknown"
  sync_method : Option String := none
  group_id : Option Nat := none
deriving Repr, DecidableEq

/-- Group row, from models.py class Group (defaults mirror the column defaults). -/
structure Group where
  id : Nat
  name : String
  description : Option String := none
  color : Option String := none
  proxy_url : Option String := none
  auto_sync : Bool := false
  sync_interval_minutes : Nat := 2
  sync_batch_size : Nat := 1
  auto_refresh_token : Bool := true
  refresh_interval_hours : Nat := 24
deriving Repr, DecidableEq

/-- Result of outlook_client.refresh_access_token (outlook_client.py lines 73-99). -/
structure TokenData where
  access_token : String
  refresh_token : String
  expires_in : Int
deriving Repr, DecidableEq

/-- Nested emailAddress object of a Graph-API-shaped message; the `from` field and
its `emailAddress` member are collapsed into one optional value. -/
structure EmailAddress where
  name : Option String := none
  address : Option String := none
deriving Repr, DecidableEq

/-- Graph-API-shaped message as consumed by _save_emails_from_list (scheduler.py 79-98). -/
structure Msg where
  id : Option String := none
  subject : Option String := none
  sender : Option EmailAddress := none
  isRead : Option Bool := none
  bodyPreview : Option String := none
  receivedDateTime : Option String := none
deriving Repr, DecidableEq

/-- Email row, from models.py class Email. -/
structure EmailRecord where
  account_id : Nat
  message_id : String
  subject : String
  sender_name : String
  sender_address : String
  is_read : Bool
  body_preview : String
  received_at : Option Int
deriving Repr, DecidableEq

/-- Sync log entry, from scheduler.py _add_log (lines 31-38); the timestamp is omitted
(it is datetime.utcnow at call time and no claim observes it). -/
structure LogEntry where
  level : String
  email : String
  message : String
deriving Repr, DecidableEq

/-- Error raised by a protocol attempt.  outlook_client.py defines class ProxyError
(lines 37-39) raised by the Graph operations on httpx.ProxyError/ConnectError when a
proxy is configured; every other failure is a plain exception. -/
inductive FetchError where
  | proxyError (msg : String)
  | otherError (msg : String)
deriving Repr, DecidableEq

/-- Python str(e): the message carried by the exception. -/
def FetchError.message : FetchError → String
  | .proxyError s => s
  | .otherError s => s

/-- Result of a successful protocol attempt: the fetched message list
(data.get("value", [])) together with the unread count (get_unread_count for graph,
data.get("_unread_count", 0) for IMAP). -/
structure FetchSuccess where
  unread : Int
  messages : List Msg
deriving Repr, DecidableEq

/-- Lookup in an association list modelling a Python dict. -/
def lookupAssoc {α β : Type} [DecidableEq α] : List (α × β) → α → Option β
  | [], _ => none
  | p :: rest, k => if p.1 = k then some p.2 else lookupAssoc rest k

/-- Drop every binding of key `k`. -/
def removeKey {α β : Type} [DecidableEq α] (k : α) : List (α × β) → List (α × β)
  | [] => []
  | p :: rest => if p.1 = k then removeKey k rest else p :: removeKey k rest

/-- Dict assignment `d[k] = v`: overwrites any previous binding of `k`. -/
def updateAssoc {α β : Type} [DecidableEq α] (m : List (α × β)) (k : α) (v : β) :
    List (α × β) :=
  (k, v) :: removeKey k m

/-- MAX_LOG_ENTRIES = 200 (scheduler.py line 25). -/
def MAX_LOG_ENTRIES : Nat := 200

/-- scheduler.py _add_log: sync_log.appendleft on a deque with maxlen 200. -/
def addLog (log : List LogEntry) (e : LogEntry) : List LogEntry :=
  (e :: log).take MAX_LOG_ENTRIES

/-- The token freshness condition of scheduler.py line 47:
`account.token_expires_at and account.token_expires_at > now + timedelta(minutes=5)`
(a datetime object is always truthy, so the first conjunct is presence). -/
def tokenFresh (now : Int) (account : Account) : Bool :=
  match account.token_expires_at with
  | some exp => now + 5 * 60 < exp
  | none => false

/-- Outcome of the token freshness gate; `clientIdPassed = some c` records that the
token-refresh network operation was invoked with client id `c`, `networkCalls` counts
invocations of refresh_access_token. -/
structure GateResult where
  account : Account
  ok : Bool
  networkCalls : Nat
  clientIdPassed : Option (Option String)
deriving Repr, DecidableEq

/-- scheduler.py _maybe_refresh_token (lines 41-62).  `refreshResult` is the oracle for
outlook_client.refresh_access_token: `ok` is the token payload, `error` models the
call raising. -/
def maybeRefreshToken (now : Int) (refreshResult : Except String TokenData)
    (account : Account) : GateResult :=
  if tokenFresh now account then
    { account := account, ok := true, networkCalls := 0, clientIdPassed := none }
  else
    match refreshResult with
    | Except.ok td =>
      { account := { account with
          access_token := some td.access_token
          refresh_token := some td.refresh_token
          token_expires_at := some (now + td.expires_in) }
        ok := true, networkCalls := 1, clientIdPassed := some account.client_id }
    | Except.error _ =>
      { account := account, ok := false, networkCalls := 1
        clientIdPassed := some account.client_id }

/-- routes/refresh.py _do_refresh_one line 23: `client_id = account.client_id or
DEFAULT_CLIENT_ID` (Python `or` falls through on None and on the empty string). -/
def doRefreshOneClientId (defaultClientId : String) (account : Account) : String :=
  match account.client_id with
  | some c => if c = "" then defaultClientId else c
  | none => defaultClientId

/-- Python falsiness of an optional string: None and "" are falsy. -/
def falsyOptStr : Option String → Bool
  | none => true
  | some s => s = ""

/-- routes/refresh.py _do_refresh_one lines 23-25: the client id the refresh call is
issued with, or `none` when the guard `if not client_id or not account.refresh_token`
refuses to refresh. -/
def doRefreshOneIssues (defaultClientId : String) (account : Account) : Option String :=
  let cid := doRefreshOneClientId defaultClientId account
  if cid = "" ∨ falsyOptStr account.refresh_token then
    none
  else
    some cid

/-- The ids already stored for the account: scheduler.py lines 73-76
(select Email.message_id where account_id = account.id). -/
def existingIds (store : List EmailRecord) (accountId : Nat) : List String :=
  (store.filter (fun r => r.account_id = accountId)).map (fun r => r.message_id)

/-- The skip test of scheduler.py line 81: `if not msg_id or msg_id in existing_ids:
continue` (None and "" are both falsy). -/
def shouldInsert (existing : List String) (m : Msg) : Bool :=
  match m.id with
  | none => false
  | some s => if s = "" ∨ s ∈ existing then false else true

/-- Building the Email row, scheduler.py lines 84-109 (field truncation via Python
slicing; `or ""` coalesces both None and ""). -/
def toEmailRecord (parseDate : String → Option Int) (accountId : Nat) (m : Msg) :
    EmailRecord :=
  { account_id := accountId
    message_id := m.id.getD ""
    subject := (m.subject.getD "").take 500
    sender_name := ((m.sender.bind (fun ea => ea.name)).getD "").take 255
    sender_address := ((m.sender.bind (fun ea => ea.address)).getD "").take 255
    is_read := m.isRead.getD false
    body_preview := (m.bodyPreview.getD "").take 500
    received_at := m.receivedDateTime.bind parseDate }

/-- The insertion loop of scheduler.py lines 78-113: returns the list of rows added by
session.add (in loop order) and new_count.  `existing` is fixed for the whole loop. -/
def saveEmailsGo (parseDate : String → Option Int) (existing : List String)
    (accountId : Nat) : List Msg → List EmailRecord × Nat
  | [] => ([], 0)
  | m :: rest =>
    let r := saveEmailsGo parseDate existing accountId rest
    if shouldInsert existing m then
      (toEmailRecord parseDate accountId m :: r.1, r.2 + 1)
    else
      r

/-- scheduler.py _save_emails_from_list (lines 65-116): loads the known-id set in one
query, inserts only absent ids, returns the new store and new_count. -/
def saveEmailsFromList (parseDate : String → Option Int) (store : List EmailRecord)
    (accountId : Nat) (messages : List Msg) : List EmailRecord × Nat :=
  let r := saveEmailsGo parseDate (existingIds store accountId) accountId messages
  (store ++ r.1, r.2)

/-- The new-mail event recording of scheduler.py lines 202-203 / 219-220:
`if unread > old_unread: new_email_events[account.id] = unread - old_unread`. -/
def noteNewMail (events : List (Nat × Int)) (accountId : Nat) (oldUnread newUnread : Int) :
    List (Nat × Int) :=
  if newUnread > oldUnread then updateAssoc events accountId (newUnread - oldUnread)
  else events

/-- main.py get_notifications (lines 224-229): snapshot the event map, clear it, return
the snapshot.  First component: the returned snapshot; second: the map afterwards. -/
def drainEvents (events : List (Nat × Int)) : List (Nat × Int) × List (Nat × Int) :=
  (events, [])

/-- The default fallback chain of scheduler.py line 189. -/
def baseMethods : List String := ["graph", "imap_new", "imap_old"]

/-- scheduler.py lines 189-192: move the cached sync_method, when it is one of the
known methods, to the front of the order (list.remove then insert(0, ...)). -/
def methodsOrder (syncMethod : Option String) : List String :=
  match syncMethod with
  | some m => if m ∈ baseMethods then m :: baseMethods.erase m else baseMethods
  | none => baseMethods

/-- The account field updates of a successful protocol attempt (scheduler.py lines
206-207 and 223-224 for the per-protocol flags, line 229 for sync_method): graph sets
graph_enabled, either IMAP variant sets imap_enabled; the other flags are untouched. -/
def applyMethodAccount (m : String) (unread : Int) (a : Account) : Account :=
  if m = "graph" then
    { a with unread_count := some unread, graph_enabled := some true
             sync_method := some m }
  else if m = "imap_new" ∨ m = "imap_old" then
    { a with unread_count := some unread, imap_enabled := some true
             sync_method := some m }
  else
    a

/-- State threaded through the protocol fallback loop of scheduler.py lines 184-233.
`attempted` is ghost instrumentation recording the protocols tried in order. -/
structure LoopState where
  account : Account
  events : List (Nat × Int)
  store : List EmailRecord
  log : List LogEntry
  saved : Nat
  sync_errors : List String
  used_method : Option String
  attempted : List String
deriving Repr, DecidableEq

/-- The `for method in methods_order` loop of scheduler.py lines 194-233.  `attempts`
is the oracle for the network fetch of each protocol (fetch_emails+get_unread_count
for graph, fetch_emails_imap for the IMAP variants); an `error` result models the
attempt raising.  On success (lines 196-230): the new-mail event, the unread count,
the capability flag, the saved messages and sync_method, then break.  On an exception
(lines 231-233): append "{method}: {str(e)[:100]}" to sync_errors and continue —
every exception class, ProxyError included, is caught by the same handler.  A method
outside the three known ones takes no branch, so the code falls through to line 229
and breaks with used_method unchanged. -/
def protocolLoop (attempts : String → Except FetchError FetchSuccess)
    (parseDate : String → Option Int) : List String → LoopState → LoopState
  | [], st => st
  | m :: rest, st =>
    if m = "graph" ∨ m = "imap_new" ∨ m = "imap_old" then
      match attempts m with
      | Except.ok d =>
        let old := st.account.unread_count.getD 0
        let events2 := noteNewMail st.events st.account.id old d.unread
        let log2 :=
          if d.unread > old then
            addLog st.log
              { level := "info", email := st.account.email
                message := toString (d.unread - old) ++ " 封新邮件" }
          else st.log
        let acct2 := applyMethodAccount m d.unread st.account
        let sv := saveEmailsFromList parseDate st.store acct2.id d.messages
        { account := acct2, events := events2, store := sv.1, log := log2
          saved := sv.2, sync_errors := st.sync_errors, used_method := some m
          attempted := st.attempted ++ [m] }
      | Except.error e =>
        protocolLoop attempts parseDate rest
          { st with
              sync_errors := st.sync_errors ++ [m ++ ": " ++ e.message.take 100]
              attempted := st.attempted ++ [m] }
    else
      { st with account := { st.account with sync_method := st.used_method }
                attempted := st.attempted ++ [m] }

/-- scheduler.py line 248 method_labels, looked up with get(used_method, used_method). -/
def methodLabel (m : String) : String :=
  if m = "graph" then "Graph"
  else if m = "imap_new" then "IMAP(新)"
  else if m = "imap_old" then "IMAP(旧)"
  else m

/-- Python str() of an optional int column value. -/
def optIntStr : Option Int → String
  | some n => toString n
  | none => "None"

/-- Result of one per-account sync attempt (the try body of scheduler.py lines
184-250, after the token gate).  `raised = some msg` models the exception of line 238
escaping the protocol loop. -/
structure SyncOut where
  account : Account
  events : List (Nat × Int)
  store : List EmailRecord
  log : List LogEntry
  saved : Nat
  sync_errors : List String
  used_method : Option String
  attempted : List String
  raised : Option String
deriving Repr, DecidableEq

/-- scheduler.py lines 184-250: run the fallback chain; if no method succeeded, reset
sync_method and graph_enabled and raise "所有协议均失败: " joined with the accumulated
errors (lines 235-238); on success mark the account active, record last_synced, clear
last_error and append the success log entries (lines 240-250).  `idx` and `total` only
feed the success log message. -/
def syncAccountAttempt (attempts : String → Except FetchError FetchSuccess)
    (parseDate : String → Option Int) (now : Int) (idx total : Nat)
    (acct : Account) (events : List (Nat × Int)) (store : List EmailRecord)
    (log : List LogEntry) : SyncOut :=
  let order := methodsOrder acct.sync_method
  let st := protocolLoop attempts parseDate order
    { account := acct, events := events, store := store, log := log
      saved := 0, sync_errors := [], used_method := none, attempted := [] }
  match st.used_method with
  | none =>
    { account := { st.account with sync_method := none, graph_enabled := none }
      events := st.events, store := st.store, log := st.log, saved := st.saved
      sync_errors := st.sync_errors, used_method := none, attempted := st.attempted
      raised := some ("所有协议均失败: " ++ String.intercalate "; " st.sync_errors) }
  | some w =>
    let acct2 := { st.account with status := "active", last_synced := some now
                                   last_error := none }
    let log2 :=
      if st.saved > 0 then
        addLog st.log
          { level := "info", email := acct2.email
            message := "保存了 " ++ toString st.saved ++ " 封新邮件到本地" }
      else st.log
    let log3 := addLog log2
      { level := "success", email := acct2.email
        message := "同步成功 via " ++ methodLabel w ++ " (" ++ toString (idx + 1)
          ++ "/" ++ toString total ++ ")，未读: " ++ optIntStr acct2.unread_count }
    { account := acct2, events := st.events, store := st.store, log := log3
      saved := st.saved, sync_errors := st.sync_errors, used_method := some w
      attempted := st.attempted, raised := none }

/-- The seen-set deduplication of scheduler.py lines 160-166: keep the first
occurrence of each index. -/
def firstDedupGo (seen : List Nat) : List Nat → List Nat
  | [] => []
  | x :: xs =>
    if x ∈ seen then firstDedupGo seen xs
    else x :: firstDedupGo (x :: seen) xs

/-- De-duplicated batch indices (scheduler.py lines 160-166). -/
def firstDedup (l : List Nat) : List Nat := firstDedupGo [] l

/-- The account query of scheduler.py lines 136-144: non-disabled accounts of the
group (the input list stands for the id-ordered accounts table, and filtering keeps
its order). -/
def selectGroupAccounts (groupId : Nat) (dbAccounts : List Account) : List Account :=
  dbAccounts.filter (fun a => a.status ≠ "disabled" ∧ a.group_id = some groupId)

/-- Mutable state of one group batch run.  `processed` is ghost instrumentation
recording the loop iterations of `for idx in unique_indices` in order. -/
structure GroupState where
  accounts : List Account
  events : List (Nat × Int)
  store : List EmailRecord
  log : List LogEntry
  processed : List Nat
deriving Repr, DecidableEq

/-- One iteration of the per-account loop, scheduler.py lines 168-257.  The token gate
runs first; a gate failure records the error and skips the sync (lines 177-182).
Otherwise the sync attempt runs; a raised exception is caught at this per-account
boundary (lines 252-257): status = "error", last_error = str(e)[:500], and an error
log entry with str(e)[:200]; the loop then proceeds. -/
def processAccount (attemptsOf : Nat → String → Except FetchError FetchSuccess)
    (refreshOf : Nat → Except String TokenData) (parseDate : String → Option Int)
    (now : Int) (total : Nat) (st : GroupState) (idx : Nat) : GroupState :=
  match st.accounts.get? idx with
  | none => { st with processed := st.processed ++ [idx] }
  | some acct =>
    let gate := maybeRefreshToken now (refreshOf acct.id) acct
    if gate.ok then
      let r := syncAccountAttempt (attemptsOf acct.id) parseDate now idx total
        gate.account st.events st.store st.log
      match r.raised with
      | some e =>
        let acct2 := { r.account with status := "error"
                                      last_error := some (e.take 500) }
        { accounts := st.accounts.set idx acct2, events := r.events
          store := r.store
          log := addLog r.log
            { level := "error", email := acct.email
              message := "同步失败: " ++ e.take 200 }
          processed := st.processed ++ [idx] }
      | none =>
        { accounts := st.accounts.set idx r.account, events := r.events
          store := r.store, log := r.log, processed := st.processed ++ [idx] }
    else
      let acct2 := { gate.account with status := "error"
                                       last_error := some "Token 过期且刷新失败" }
      { accounts := st.accounts.set idx acct2, events := st.events, store := st.store
        log := addLog st.log
          { level := "error", email := acct.email
            message := "Token 过期且刷新失败，跳过同步" }
        processed := st.processed ++ [idx] }

/-- Result of one group batch run. -/
structure GroupOut where
  population : List Account
  events : List (Nat × Int)
  store : List EmailRecord
  log : List LogEntry
  offsets : List (Nat × Nat)
  processed : List Nat
deriving Repr, DecidableEq

/-- scheduler.py _sync_accounts_for_group (lines 119-265).  `population` is the
group's selected (non-disabled) accounts after the run, in query order; `offsets` is
the _group_offsets dict.  batch_size = grp.sync_batch_size or 1 (line 132); offset =
stored cursor mod total (line 151); indices (offset + i) mod total for i < batch_size
(lines 152-158), first-occurrence-deduplicated (lines 160-166); after the loop the
cursor advances by len(unique_indices) mod total (lines 261-263). -/
def syncAccountsForGroup (attemptsOf : Nat → String → Except FetchError FetchSuccess)
    (refreshOf : Nat → Except String TokenData) (parseDate : String → Option Int)
    (now : Int) (grp : Group) (dbAccounts : List Account)
    (offsets : List (Nat × Nat)) (events : List (Nat × Int))
    (store : List EmailRecord) (log : List LogEntry) : GroupOut :=
  if grp.auto_sync = false then
    { population := selectGroupAccounts grp.id dbAccounts, events := events
      store := store, log := log, offsets := offsets, processed := [] }
  else
    let batchSize := if grp.sync_batch_size = 0 then 1 else grp.sync_batch_size
    let all := selectGroupAccounts grp.id dbAccounts
    let total := all.length
    if total = 0 then
      { population := all, events := events, store := store, log := log
        offsets := offsets, processed := [] }
    else
      let offset := (lookupAssoc offsets grp.id).getD 0 % total
      let batchIndices := (List.range batchSize).map (fun i => (offset + i) % total)
      let uniq := firstDedup batchIndices
      let final := uniq.foldl (processAccount attemptsOf refreshOf parseDate now total)
        { accounts := all, events := events, store := store, log := log
          processed := [] }
      let nextOffset := (offset + uniq.length) % total
      { population := final.accounts, events := final.events, store := final.store
        log := final.log, offsets := updateAssoc offsets grp.id nextOffset
        processed := final.processed }

/-! ### Helper lemmas about the association-list dict model -/

lemma lookupAssoc_removeKey {α β : Type} [DecidableEq α] (m : List (α × β)) (k q : α)
    (hqk : ¬q = k) :
    lookupAssoc (removeKey k m) q = lookupAssoc m q := by
  induction m with
  | nil => rfl
  | cons p rest ih =>
    by_cases hpk : p.1 = k
    · rw [removeKey, if_pos hpk, ih, lookupAssoc,
        if_neg (by rw [hpk]; exact fun h => hqk h.symm)]
    · rw [removeKey, if_neg hpk]
      by_cases hpq : p.1 = q
      · rw [lookupAssoc, if_pos hpq, lookupAssoc, if_pos hpq]
      · rw [lookupAssoc, if_neg hpq, lookupAssoc, if_neg hpq, ih]

lemma lookupAssoc_updateAssoc {α β : Type} [DecidableEq α] (m : List (α × β)) (k q : α)
    (v : β) :
    lookupAssoc (updateAssoc m k v) q = if q = k then some v else lookupAssoc m q := by
  by_cases hqk : q = k
  · subst hqk; simp [updateAssoc, lookupAssoc]
  · rw [updateAssoc, lookupAssoc, if_neg (fun h => hqk h.symm), if_neg hqk,
      lookupAssoc_removeKey m k q hqk]

/-! ### Helper lemmas about message ingestion -/

lemma saveEmailsGo_eq (pd : String → Option Int) (E : List String) (aid : Nat) :
    ∀ msgs : List Msg,
      saveEmailsGo pd E aid msgs =
        ((msgs.filter (shouldInsert E)).map (toEmailRecord pd aid),
         (msgs.filter (shouldInsert E)).length)
  | [] => rfl
  | m :: rest => by
    simp only [saveEmailsGo, saveEmailsGo_eq pd E aid rest, List.filter_cons]
    by_cases h : shouldInsert E m
    · simp [h]
    · simp [h]

lemma existingIds_append (s t : List EmailRecord) (aid : Nat) :
    existingIds (s ++ t) aid = existingIds s aid ++ existingIds t aid := by
  simp [existingIds, List.filter_append]

lemma existingIds_newRecs (pd : String → Option Int) (aid : Nat) (l : List Msg) :
    existingIds (l.map (toEmailRecord pd aid)) aid = l.map (fun m => m.id.getD "") := by
  induction l with
  | nil => rfl
  | cons m rest ih =>
    simpa [existingIds, List.filter_cons, toEmailRecord] using ih

lemma second_pass_skips (pd : String → Option Int) (store : List EmailRecord)
    (aid : Nat) (msgs : List Msg) (m : Msg) (hm : m ∈ msgs) :
    shouldInsert (existingIds (saveEmailsFromList pd store aid msgs).1 aid) m = false := by
  cases hid : m.id with
  | none => simp [shouldInsert, hid]
  | some s =>
    by_cases hs : s = ""
    · simp [shouldInsert, hid, hs]
    · by_cases hE : s ∈ existingIds store aid
      · have : s ∈ existingIds (saveEmailsFromList pd store aid msgs).1 aid := by
          rw [saveEmailsFromList, saveEmailsGo_eq, existingIds_append]
          exact List.mem_append_left _ hE
        simp [shouldInsert, hid, this]
      · have hins : shouldInsert (existingIds store aid) m = true := by
          simp [shouldInsert, hid, hs, hE]
        have : s ∈ existingIds (saveEmailsFromList pd store aid msgs).1 aid := by
          rw [saveEmailsFromList, saveEmailsGo_eq, existingIds_append,
            existingIds_newRecs]
          refine List.mem_append_right _ ?_
          refine List.mem_map.mpr ⟨m, List.mem_filter.mpr ⟨hm, hins⟩, ?_⟩
          simp [hid]
        simp [shouldInsert, hid, this]

lemma save_second_pass (pd : String → Option Int) (store : List EmailRecord)
    (aid : Nat) (msgs : List Msg) :
    saveEmailsFromList pd (saveEmailsFromList pd store aid msgs).1 aid msgs =
      ((saveEmailsFromList pd store aid msgs).1, 0) := by
  have hfilter :
      msgs.filter (shouldInsert (existingIds (saveEmailsFromList pd store aid msgs).1 aid))
        = [] := by
    refine List.filter_eq_nil_iff.mpr ?_
    intro m hm
    simp [second_pass_skips pd store aid msgs m hm]
  conv_lhs => rw [saveEmailsFromList, saveEmailsGo_eq, hfilter]
  simp

/-! ### Claim theorems: token freshness gate (C3) -/

/-- Account with no access token but a far-future expiry: exposes that the gate
checks only token_expires_at. -/
def c3Account : Account :=
  { id := 3, email := "c3@example.com", access_token := none
    token_expires_at := some 1000000 }

/-- C3 counterexample: the claim says the gate returns true with zero network calls
only if access_token is present; but for an account with `access_token = None` and a
far-future `token_expires_at`, `_maybe_refresh_token` returns true with zero network
calls — the code never examines access_token (scheduler.py line 47). -/
theorem c3_counterexample :
    (maybeRefreshToken 0 (Except.error "unused") c3Account).networkCalls = 0 ∧
    (maybeRefreshToken 0 (Except.error "unused") c3Account).ok = true ∧
    c3Account.access_token = none := by
  exact ⟨rfl, rfl, rfl⟩

/-- C3 (amended): `_maybe_refresh_token` returns true with zero network calls if and
only if `token_expires_at` is present and more than 5 minutes after the current time;
the presence of `access_token` is not checked.  In every other case it invokes the
token-refresh operation (exactly one network call) before any fetch. -/
theorem c3_token_gate (now : Int) (r : Except String TokenData) (a : Account) :
    ((maybeRefreshToken now r a).networkCalls = 0 ↔ tokenFresh now a = true) ∧
    ((maybeRefreshToken now r a).networkCalls = 0 →
      (maybeRefreshToken now r a).ok = true ∧ (maybeRefreshToken now r a).account = a) ∧
    (tokenFresh now a = false → (maybeRefreshToken now r a).networkCalls = 1) ∧
    (tokenFresh now a = true ↔
      ∃ exp, a.token_expires_at = some exp ∧ now + 5 * 60 < exp) := by
  refine ⟨?_, ?_, ?_, ?_⟩
  · by_cases h : tokenFresh now a
    · simp [maybeRefreshToken, h]
    · cases r <;> simp [maybeRefreshToken, h]
  · by_cases h : tokenFresh now a
    · simp [maybeRefreshToken, h]
    · cases r <;> simp [maybeRefreshToken, h]
  · intro h
    cases r <;> simp [maybeRefreshToken, h]
  · cases hexp : a.token_expires_at with
    | none => simp [tokenFresh, hexp]
    | some exp =>
      by_cases hlt : now + 5 * 60 < exp
      · simp [tokenFresh, hexp, hlt]
      · simp [tokenFresh, hexp, hlt]

/-- C3 witness: a concrete stale account (no expiry recorded) makes the gate spend
its one refresh network call. -/
theorem c3_token_gate_witness :
    (maybeRefreshToken 0
        (Except.ok { access_token := "at", refresh_token := "rt", expires_in := 3600 })
        { id := 31, email := "c3w@example.com" }).networkCalls = 1 := by
  exact (c3_token_gate 0
    (Except.ok { access_token := "at", refresh_token := "rt", expires_in := 3600 })
    { id := 31, email := "c3w@example.com" }).2.2.1 rfl

/-! ### Claim theorems: refresh client id selection (C9) -/

/-- Account with no client_id and a stale token. -/
def c9Account : Account :=
  { id := 9, email := "c9@example.com", client_id := none
    refresh_token := some "rt", token_expires_at := none }

/-- C9 counterexample: the claim says the scheduler's gate never issues a refresh with
an absent client id (falling back to the configured default); but
`_maybe_refresh_token` (scheduler.py lines 52-53) passes `account.client_id` as-is, so
for an account with `client_id = None` the refresh is issued with an absent client id
and no default is substituted. -/
theorem c9_counterexample :
    (maybeRefreshToken 0
        (Except.ok { access_token := "at", refresh_token := "rt2", expires_in := 3600 })
        c9Account).networkCalls = 1 ∧
    (maybeRefreshToken 0
        (Except.ok { access_token := "at", refresh_token := "rt2", expires_in := 3600 })
        c9Account).clientIdPassed = some none := by
  exact ⟨rfl, rfl⟩

/-- C9 (amended): whenever the scheduler's token freshness gate refreshes, it passes
the account's client_id unchanged — possibly absent, with no default substituted.
The fallback to the configured default client id lives in the route-level refresh
helper `_do_refresh_one` (routes/refresh.py lines 21-25), which uses the account's
client_id when present and non-empty, otherwise the default, and refuses to issue a
refresh with a falsy client id. -/
theorem c9_client_id_selection (now : Int) (r : Except String TokenData) (a : Account)
    (d : String) :
    (tokenFresh now a = false →
      (maybeRefreshToken now r a).clientIdPassed = some a.client_id) ∧
    (a.client_id = none → doRefreshOneClientId d a = d) ∧
    (∀ c, a.client_id = some c → c ≠ "" → doRefreshOneClientId d a = c) ∧
    (∀ c, doRefreshOneIssues d a = some c → c ≠ "" ∧ c = doRefreshOneClientId d a) := by
  refine ⟨?_, ?_, ?_, ?_⟩
  · intro h
    cases r <;> simp [maybeRefreshToken, h]
  · intro h; simp [doRefreshOneClientId, h]
  · intro c hc hne; simp [doRefreshOneClientId, hc, hne]
  · intro c hc
    by_cases hcid : doRefreshOneClientId d a = ""
    · simp [doRefreshOneIssues, hcid] at hc
    · by_cases hrt : falsyOptStr a.refresh_token
      · simp [doRefreshOneIssues, hrt] at hc
      · simp [doRefreshOneIssues, hcid, hrt] at hc
        exact ⟨hc ▸ hcid, hc.symm⟩

/-- C9 witness: concrete account with a present non-empty client_id and a stale
token — the gate passes exactly that client id. -/
theorem c9_client_id_selection_witness :
    (maybeRefreshToken 0 (Except.error "boom")
        { id := 91, email := "c9w@example.com", client_id := some "cid-1"
          refresh_token := some "rt" }).clientIdPassed = some (some "cid-1") := by
  exact (c9_client_id_selection 0 (Except.error "boom")
    { id := 91, email := "c9w@example.com", client_id := some "cid-1"
      refresh_token := some "rt" } "default").1 rfl

/-! ### Claim theorems: message ingestion (C5, C10) -/

/-- C5: ingestion inserts exactly the messages passing the absence test against the
id set loaded once from the store, returns their count, is idempotent (an immediate
re-ingest of the same batch stores nothing), and never updates on conflict: a message
whose id is already stored is skipped and the store is unchanged. -/
theorem c5_ingest_dedup_idempotent (pd : String → Option Int)
    (store : List EmailRecord) (aid : Nat) (msgs : List Msg) :
    (saveEmailsFromList pd store aid msgs).2 =
        (msgs.filter (shouldInsert (existingIds store aid))).length ∧
    (saveEmailsFromList pd store aid msgs).1 =
        store ++ (msgs.filter (shouldInsert (existingIds store aid))).map
          (toEmailRecord pd aid) ∧
    saveEmailsFromList pd (saveEmailsFromList pd store aid msgs).1 aid msgs =
        ((saveEmailsFromList pd store aid msgs).1, 0) ∧
    (∀ m i, m.id = some i → i ∈ existingIds store aid →
      saveEmailsFromList pd store aid [m] = (store, 0)) := by
  refine ⟨?_, ?_, save_second_pass pd store aid msgs, ?_⟩
  · rw [saveEmailsFromList, saveEmailsGo_eq]
  · rw [saveEmailsFromList, saveEmailsGo_eq]
  · intro m i hid hmem
    have hsk : shouldInsert (existingIds store aid) m = false := by
      simp [shouldInsert, hid, hmem]
    rw [saveEmailsFromList, saveEmailsGo_eq]
    simp [List.filter_cons, hsk]

/-- Sample message and store for the ingestion witnesses. -/
def c5Msg : Msg := { id := some "m1", subject := some "hello" }

/-- Store already holding the record for c5Msg under account 7. -/
def c5Store : List EmailRecord := [toEmailRecord (fun _ => none) 7 c5Msg]

/-- C5 witness: re-fetching id "m1" with a changed subject ingests 0 and leaves the
store unchanged (the spec's no-update-on-conflict example). -/
theorem c5_ingest_dedup_idempotent_witness :
    saveEmailsFromList (fun _ => none) c5Store 7 [{ c5Msg with subject := some "changed" }]
      = (c5Store, 0) := by
  exact (c5_ingest_dedup_idempotent (fun _ => none) c5Store 7
    [{ c5Msg with subject := some "changed" }]).2.2.2
    { c5Msg with subject := some "changed" } "m1" rfl (by decide)

/-- C10: the known-id set is computed once before the loop and never extended during
it — a batch containing the same new id twice inserts two records and counts both. -/
theorem c10_no_intrabatch_dedup (pd : String → Option Int) (store : List EmailRecord)
    (aid : Nat) (m : Msg) (h : shouldInsert (existingIds store aid) m = true) :
    saveEmailsFromList pd store aid [m, m] =
      (store ++ [toEmailRecord pd aid m, toEmailRecord pd aid m], 2) := by
  rw [saveEmailsFromList, saveEmailsGo_eq]
  simp [List.filter_cons, h]

/-- C10 witness: ingesting [c5Msg, c5Msg] into an empty store yields two copies and
count 2. -/
theorem c10_no_intrabatch_dedup_witness :
    saveEmailsFromList (fun _ => none) [] 7 [c5Msg, c5Msg] =
      ([toEmailRecord (fun _ => none) 7 c5Msg, toEmailRecord (fun _ => none) 7 c5Msg],
       2) := by
  exact c10_no_intrabatch_dedup (fun _ => none) [] 7 c5Msg (by decide)

/-! ### Claim theorems: new-mail events (C8) -/

/-- C8: a new-mail event is recorded if and only if the observed unread count strictly
exceeds the stored one; the recorded value is the positive difference, overwriting any
undrained prior delta (other accounts' entries unchanged); draining returns the map as
a snapshot and leaves it empty, so an immediate second drain returns the empty map.
The final conjunct anchors the recording into the sync path: a successful first
protocol attempt produces exactly `noteNewMail` of the previous state. -/
theorem c8_new_mail_events (events : List (Nat × Int)) (aid : Nat) (oldU newU : Int)
    (k : Nat) (pd : String → Option Int) (now : Int) (idx total : Nat) (acct : Account)
    (d : FetchSuccess) (events2 : List (Nat × Int)) (store : List EmailRecord)
    (log : List LogEntry) :
    (lookupAssoc (noteNewMail events aid oldU newU) k =
        if k = aid ∧ oldU < newU then some (newU - oldU) else lookupAssoc events k) ∧
    drainEvents events = (events, []) ∧
    (drainEvents (drainEvents events).2).1 = [] ∧
    (syncAccountAttempt (fun _ => Except.ok d) pd now idx total
        { acct with sync_method := none } events2 store log).events =
      noteNewMail events2 acct.id (acct.unread_count.getD 0) d.unread := by
  refine ⟨?_, rfl, rfl, rfl⟩
  by_cases hlt : newU > oldU
  · rw [noteNewMail, if_pos hlt, lookupAssoc_updateAssoc]
    by_cases hk : k = aid
    · simp [hk, hlt]
    · simp [hk]
  · rw [noteNewMail, if_neg hlt]
    have : ¬(k = aid ∧ oldU < newU) := fun h => hlt h.2
    rw [if_neg this]

/-! ### Helper lemmas about the protocol order -/

lemma methodsOrder_cases (sm : Option String) :
    methodsOrder sm = ["graph", "imap_new", "imap_old"] ∨
    methodsOrder sm = ["imap_new", "graph", "imap_old"] ∨
    methodsOrder sm = ["imap_old", "graph", "imap_new"] := by
  cases sm with
  | none => left; rfl
  | some m =>
    by_cases h1 : m = "graph"
    · subst h1; left; decide
    · by_cases h2 : m = "imap_new"
      · subst h2; right; left; decide
      · by_cases h3 : m = "imap_old"
        · subst h3; right; right; decide
        · left
          have hnm : ¬m ∈ baseMethods := by
            simp [baseMethods, h1, h2, h3]
          simp only [methodsOrder, if_neg hnm]
          rfl

lemma methodsOrder_mem (sm : Option String) (m : String) (h : m ∈ methodsOrder sm) :
    m = "graph" ∨ m = "imap_new" ∨ m = "imap_old" := by
  rcases methodsOrder_cases sm with hc | hc | hc <;> rw [hc] at h <;>
    simp only [List.mem_cons, List.not_mem_nil, or_false] at h
  · exact h
  · rcases h with h | h | h
    · exact Or.inr (Or.inl h)
    · exact Or.inl h
    · exact Or.inr (Or.inr h)
  · rcases h with h | h | h
    · exact Or.inr (Or.inr h)
    · exact Or.inl h
    · exact Or.inr (Or.inl h)

lemma methodsOrder_nodup (sm : Option String) : (methodsOrder sm).Nodup := by
  rcases methodsOrder_cases sm with hc | hc | hc <;> rw [hc]
  · decide
  · decide
  · decide

/-! ### Claim theorems: proxy errors and the fallback chain (C2) -/

/-- Erase the proxy/other distinction of an attempt outcome, keeping the message. -/
def reclassifyResult : Except FetchError FetchSuccess → Except FetchError FetchSuccess
  | Except.ok d => Except.ok d
  | Except.error e => Except.error (FetchError.otherError e.message)

/-- Sample account: defaults, no cached sync_method. -/
def sampleAccount : Account := { id := 1, email := "a@example.com" }

/-- Attempt oracle where graph fails with a ProxyError and IMAP-new succeeds. -/
def c2Attempts : String → Except FetchError FetchSuccess := fun m =>
  if m = "graph" then Except.error (FetchError.proxyError "代理连接错误: boom")
  else if m = "imap_new" then Except.ok { unread := 5, messages := [] }
  else Except.error (FetchError.otherError "x")

set_option maxRecDepth 8000 in
/-- C2 counterexample: the claim says a ProxyError short-circuits the fallback chain
(no further protocols, immediate propagation, not accumulated).  On the code, after
graph fails with ProxyError the loop attempts imap_new as well, the proxy error is
accumulated as the per-protocol string "graph: 代理连接错误: boom", and nothing
propagates (the attempt succeeds via IMAP). -/
theorem c2_counterexample :
    (syncAccountAttempt c2Attempts (fun _ => none) 0 0 1 sampleAccount [] [] []).attempted
      = ["graph", "imap_new"] ∧
    (syncAccountAttempt c2Attempts (fun _ => none) 0 0 1 sampleAccount [] [] []).sync_errors
      = ["graph: 代理连接错误: boom"] ∧
    (syncAccountAttempt c2Attempts (fun _ => none) 0 0 1 sampleAccount [] [] []).raised
      = none := by
  exact ⟨rfl, rfl, rfl⟩

lemma protocolLoop_reclassify (attempts : String → Except FetchError FetchSuccess)
    (pd : String → Option Int) :
    ∀ (ms : List String) (st : LoopState),
      protocolLoop (fun m => reclassifyResult (attempts m)) pd ms st =
        protocolLoop attempts pd ms st := by
  intro ms
  induction ms with
  | nil => intro st; rfl
  | cons m rest ih =>
    intro st
    by_cases hb : m = "graph" ∨ m = "imap_new" ∨ m = "imap_old"
    · cases hres : attempts m with
      | ok d =>
        have hre : reclassifyResult (Except.ok d) = Except.ok d := rfl
        simp only [protocolLoop, if_pos hb, hres, hre]
      | error e =>
        have hre : reclassifyResult (Except.error e) =
            Except.error (FetchError.otherError e.message) := rfl
        have hmsg : (FetchError.otherError e.message).message = e.message := rfl
        simp only [protocolLoop, if_pos hb, hres, hre, hmsg]
        exact ih _
    · simp only [protocolLoop, if_neg hb]

/-- C2 (amended): a transport-layer ProxyError does not short-circuit the fallback
chain.  The per-protocol handler catches every exception class uniformly, records
"{protocol}: {message truncated to 100 chars}" and proceeds to the next protocol; the
loop's behaviour depends only on the error's message, never on whether the error is a
ProxyError — replacing every ProxyError outcome by a plain error with the same message
changes nothing in the protocol loop or in the whole per-account attempt. -/
theorem c2_proxy_error_not_special (attempts : String → Except FetchError FetchSuccess)
    (pd : String → Option Int) (ms : List String) (st : LoopState) (now : Int)
    (idx total : Nat) (acct : Account) (events : List (Nat × Int))
    (store : List EmailRecord) (log : List LogEntry) :
    protocolLoop (fun m => reclassifyResult (attempts m)) pd ms st =
        protocolLoop attempts pd ms st ∧
    syncAccountAttempt (fun m => reclassifyResult (attempts m)) pd now idx total acct
        events store log =
      syncAccountAttempt attempts pd now idx total acct events store log := by
  refine ⟨protocolLoop_reclassify attempts pd ms st, ?_⟩
  simp only [syncAccountAttempt, protocolLoop_reclassify]

/-! ### Claim theorems: all protocols failed (C6) -/

lemma protocolLoop_allFail (attempts : String → Except FetchError FetchSuccess)
    (errOf : String → FetchError) (pd : String → Option Int) :
    ∀ (ms : List String) (st : LoopState),
      (∀ m ∈ ms, m = "graph" ∨ m = "imap_new" ∨ m = "imap_old") →
      (∀ m ∈ ms, attempts m = Except.error (errOf m)) →
      protocolLoop attempts pd ms st =
        { st with
            sync_errors := st.sync_errors ++
              ms.map (fun m => m ++ ": " ++ (errOf m).message.take 100)
            attempted := st.attempted ++ ms } := by
  intro ms
  induction ms with
  | nil => intro st _ _; simp [protocolLoop]
  | cons m rest ih =>
    intro st hbase herr
    have hb := hbase m (List.mem_cons_self m rest)
    have he := herr m (List.mem_cons_self m rest)
    simp only [protocolLoop, if_pos hb, he]
    rw [ih _ (fun x hx => hbase x (List.mem_cons_of_mem m hx))
      (fun x hx => herr x (List.mem_cons_of_mem m hx))]
    simp

/-- C6: when every protocol in the order fails, sync_method is reset to none and
graph_enabled is reset to unknown (so the next round uses the default ordering), the
accumulated diagnostics are one "{protocol}: {error truncated to 100 chars}" string
per attempted protocol, and the raised error message is their "; "-join prefixed with
"所有协议均失败: ". -/
theorem c6_all_protocols_failed (attempts : String → Except FetchError FetchSuccess)
    (errOf : String → FetchError) (pd : String → Option Int) (now : Int)
    (idx total : Nat) (acct : Account) (events : List (Nat × Int))
    (store : List EmailRecord) (log : List LogEntry)
    (h : ∀ m, attempts m = Except.error (errOf m)) :
    (syncAccountAttempt attempts pd now idx total acct events store log).raised =
        some ("所有协议均失败: " ++ String.intercalate "; "
          ((methodsOrder acct.sync_method).map
            (fun m => m ++ ": " ++ (errOf m).message.take 100))) ∧
    (syncAccountAttempt attempts pd now idx total acct events store log).sync_errors =
        (methodsOrder acct.sync_method).map
          (fun m => m ++ ": " ++ (errOf m).message.take 100) ∧
    (syncAccountAttempt attempts pd now idx total acct events store log).account.sync_method
        = none ∧
    (syncAccountAttempt attempts pd now idx total acct events store log).account.graph_enabled
        = none ∧
    methodsOrder
        (syncAccountAttempt attempts pd now idx total acct events store log).account.sync_method
      = ["graph", "imap_new", "imap_old"] := by
  have hloop := protocolLoop_allFail attempts errOf pd (methodsOrder acct.sync_method)
    { account := acct, events := events, store := store, log := log
      saved := 0, sync_errors := [], used_method := none, attempted := [] }
    (fun m hm => methodsOrder_mem acct.sync_method m hm)
    (fun m _ => h m)
  refine ⟨?_, ?_, ?_, ?_, ?_⟩
  · simp [syncAccountAttempt, hloop]
  · simp [syncAccountAttempt, hloop]
  · simp [syncAccountAttempt, hloop]
  · simp [syncAccountAttempt, hloop]
  · simp only [syncAccountAttempt, hloop]
    simp [methodsOrder, baseMethods]

/-! ### Claim theorems: the fallback chain order (C4) -/

lemma protocolLoop_spec (attempts : String → Except FetchError FetchSuccess)
    (pd : String → Option Int) :
    ∀ (ms : List String) (st : LoopState),
      (∀ m ∈ ms, m = "graph" ∨ m = "imap_new" ∨ m = "imap_old") →
      st.used_method = none →
      ∃ k, k ≤ ms.length ∧
        (protocolLoop attempts pd ms st).attempted = st.attempted ++ ms.take k ∧
        ((protocolLoop attempts pd ms st).used_method = none →
          k = ms.length ∧ (∀ m ∈ ms, ∃ e, attempts m = Except.error e) ∧
          (protocolLoop attempts pd ms st).account = st.account) ∧
        (∀ w, (protocolLoop attempts pd ms st).used_method = some w →
          ∃ d, attempts w = Except.ok d ∧
            ms.take k = ms.take (k - 1) ++ [w] ∧
            (∀ m ∈ ms.take (k - 1), ∃ e, attempts m = Except.error e) ∧
            (protocolLoop attempts pd ms st).account =
              applyMethodAccount w d.unread st.account) := by
  intro ms
  induction ms with
  | nil =>
    intro st _ hu
    refine ⟨0, Nat.le_refl 0, by simp [protocolLoop], ?_, ?_⟩
    · intro _
      exact ⟨rfl, by simp, by simp [protocolLoop]⟩
    · intro w hw
      simp only [protocolLoop] at hw
      rw [hu] at hw
      cases hw
  | cons m rest ih =>
    intro st hbase hu
    have hb := hbase m (List.mem_cons_self m rest)
    cases hres : attempts m with
    | ok d =>
      refine ⟨1, by simp, ?_, ?_, ?_⟩
      · simp only [protocolLoop, if_pos hb, hres]
        simp
      · intro h
        simp only [protocolLoop, if_pos hb, hres] at h
        cases h
      · intro w hw
        simp only [protocolLoop, if_pos hb, hres] at hw
        cases hw
        refine ⟨d, hres, by simp, by simp, ?_⟩
        simp only [protocolLoop, if_pos hb, hres]
    | error e =>
      have hred : protocolLoop attempts pd (m :: rest) st =
          protocolLoop attempts pd rest
            { st with
                sync_errors := st.sync_errors ++ [m ++ ": " ++ e.message.take 100]
                attempted := st.attempted ++ [m] } := by
        simp only [protocolLoop, if_pos hb, hres]
      obtain ⟨k2, hk2le, hatt, hnone, hsome⟩ :=
        ih { st with
              sync_errors := st.sync_errors ++ [m ++ ": " ++ e.message.take 100]
              attempted := st.attempted ++ [m] }
          (fun x hx => hbase x (List.mem_cons_of_mem m hx)) hu
      refine ⟨k2 + 1, by simpa using Nat.succ_le_succ hk2le, ?_, ?_, ?_⟩
      · rw [hred, hatt]
        simp [List.take_succ_cons]
      · intro h
        rw [hred] at h
        obtain ⟨hk2, herrs, hacc⟩ := hnone h
        refine ⟨by simp [hk2], ?_, ?_⟩
        · intro x hx
          rcases List.mem_cons.mp hx with hx1 | hx2
          · exact ⟨e, hx1 ▸ hres⟩
          · exact herrs x hx2
        · rw [hred]
          exact hacc
      · intro w hw
        rw [hred] at hw
        obtain ⟨d, hd, htake, herrs, hacc⟩ := hsome w hw
        have hk2pos : k2 ≠ 0 := by
          intro h0
          rw [h0] at htake
          simp at htake
        obtain ⟨k3, rfl⟩ := Nat.exists_eq_succ_of_ne_zero hk2pos
        have htake3 : rest.take (k3 + 1) = rest.take k3 ++ [w] := by
          simpa using htake
        refine ⟨d, hd, ?_, ?_, ?_⟩
        · simp [List.take_succ_cons, htake3]
        · intro x hx
          simp only [Nat.add_sub_cancel, List.take_succ_cons] at hx
          rcases List.mem_cons.mp hx with hx1 | hx2
          · exact ⟨e, hx1 ▸ hres⟩
          · exact herrs x (by simpa using hx2)
        · rw [hred]
          exact hacc

/-- C4: for every per-account sync attempt, the protocols attempted form a
duplicate-free prefix of the order obtained from [graph, imap_new, imap_old] by
moving a valid cached sync_method to the front; attempts stop at the first success
(everything before the winner failed, nothing after it is attempted); on success
sync_method is set to the winner, the winner's capability flag is set true, and the
other capability flags are unchanged; when there is no success the whole order was
attempted and every protocol failed. -/
theorem c4_fallback_chain (attempts : String → Except FetchError FetchSuccess)
    (pd : String → Option Int) (now : Int) (idx total : Nat) (acct : Account)
    (events : List (Nat × Int)) (store : List EmailRecord) (log : List LogEntry) :
    (∃ k, (syncAccountAttempt attempts pd now idx total acct events store log).attempted
        = (methodsOrder acct.sync_method).take k) ∧
    (syncAccountAttempt attempts pd now idx total acct events store log).attempted.Nodup ∧
    (∀ m, acct.sync_method = some m → m ∈ baseMethods →
      methodsOrder acct.sync_method = m :: baseMethods.erase m) ∧
    (∀ w, (syncAccountAttempt attempts pd now idx total acct events store log).used_method
        = some w →
      (∃ d, attempts w = Except.ok d) ∧
      (∃ pre, (syncAccountAttempt attempts pd now idx total acct events store log).attempted
          = pre ++ [w] ∧ ∀ m ∈ pre, ∃ e, attempts m = Except.error e) ∧
      (syncAccountAttempt attempts pd now idx total acct events store log).account.sync_method
        = some w ∧
      (w = "graph" →
        (syncAccountAttempt attempts pd now idx total acct events store log).account.graph_enabled
          = some true ∧
        (syncAccountAttempt attempts pd now idx total acct events store log).account.imap_enabled
          = acct.imap_enabled ∧
        (syncAccountAttempt attempts pd now idx total acct events store log).account.pop3_enabled
          = acct.pop3_enabled) ∧
      ((w = "imap_new" ∨ w = "imap_old") →
        (syncAccountAttempt attempts pd now idx total acct events store log).account.imap_enabled
          = some true ∧
        (syncAccountAttempt attempts pd now idx total acct events store log).account.graph_enabled
          = acct.graph_enabled ∧
        (syncAccountAttempt attempts pd now idx total acct events store log).account.pop3_enabled
          = acct.pop3_enabled)) ∧
    ((syncAccountAttempt attempts pd now idx total acct events store log).used_method
        = none →
      (syncAccountAttempt attempts pd now idx total acct events store log).attempted
        = methodsOrder acct.sync_method ∧
      ∀ m ∈ methodsOrder acct.sync_method, ∃ e, attempts m = Except.error e) := by
  obtain ⟨k, hkle, hatt, hnone, hsome⟩ :=
    protocolLoop_spec attempts pd (methodsOrder acct.sync_method)
      { account := acct, events := events, store := store, log := log
        saved := 0, sync_errors := [], used_method := none, attempted := [] }
      (fun m hm => methodsOrder_mem acct.sync_method m hm) rfl
  have hattempted :
      (syncAccountAttempt attempts pd now idx total acct events store log).attempted =
        (methodsOrder acct.sync_method).take k := by
    cases hu : (protocolLoop attempts pd (methodsOrder acct.sync_method)
        { account := acct, events := events, store := store, log := log
          saved := 0, sync_errors := [], used_method := none
          attempted := [] }).used_method with
    | none =>
      simp only [syncAccountAttempt, hu]
      simpa using hatt
    | some w =>
      simp only [syncAccountAttempt, hu]
      simpa using hatt
  have husedeq :
      (syncAccountAttempt attempts pd now idx total acct events store log).used_method =
        (protocolLoop attempts pd (methodsOrder acct.sync_method)
          { account := acct, events := events, store := store, log := log
            saved := 0, sync_errors := [], used_method := none
            attempted := [] }).used_method := by
    cases hu : (protocolLoop attempts pd (methodsOrder acct.sync_method)
        { account := acct, events := events, store := store, log := log
          saved := 0, sync_errors := [], used_method := none
          attempted := [] }).used_method with
    | none => simp only [syncAccountAttempt, hu]
    | some w => simp only [syncAccountAttempt, hu]
  refine ⟨⟨k, hattempted⟩, ?_, ?_, ?_, ?_⟩
  · rw [hattempted]
    exact (List.take_sublist k (methodsOrder acct.sync_method)).nodup
      (methodsOrder_nodup acct.sync_method)
  · intro m hm hmem
    rw [hm]
    simp only [methodsOrder, if_pos hmem]
  · intro w hw
    rw [husedeq] at hw
    obtain ⟨d, hd, htake, herrs, hacc⟩ := hsome w hw
    have haccount :
        (syncAccountAttempt attempts pd now idx total acct events store log).account =
          { applyMethodAccount w d.unread acct with
              status := "active", last_synced := some now, last_error := none } := by
      simp only [syncAccountAttempt, hw]
      rw [hacc]
    have hwmem : w = "graph" ∨ w = "imap_new" ∨ w = "imap_old" := by
      have : w ∈ (methodsOrder acct.sync_method).take k := by
        rw [htake]
        exact List.mem_append_right _ (List.mem_singleton.mpr rfl)
      exact methodsOrder_mem acct.sync_method w
        (List.take_subset k (methodsOrder acct.sync_method) this)
    refine ⟨⟨d, hd⟩, ?_, ?_, ?_, ?_⟩
    · refine ⟨(methodsOrder acct.sync_method).take (k - 1), ?_, ?_⟩
      · rw [hattempted, htake]
      · intro m hm
        exact herrs m hm
    · rw [haccount]
      rcases hwmem with hw1 | hw1 | hw1 <;>
        simp [applyMethodAccount, hw1]
    · intro hwg
      rw [haccount, hwg]
      simp [applyMethodAccount]
    · intro hwi
      rw [haccount]
      rcases hwi with hw1 | hw1 <;> simp [applyMethodAccount, hw1]
  · intro hw
    rw [husedeq] at hw
    obtain ⟨hk, herrs, _⟩ := hnone hw
    refine ⟨?_, herrs⟩
    rw [hattempted, hk, List.take_length]

/-- Attempt oracle where only imap_old succeeds (the spec's worked example). -/
def c4Attempts : String → Except FetchError FetchSuccess := fun m =>
  if m = "imap_old" then Except.ok { unread := 2, messages := [] }
  else Except.error (FetchError.otherError "boom")

/-- C4 witness: graph and imap_new fail, imap_old succeeds — sync_method becomes
imap_old, imap_enabled is set true, graph_enabled is untouched, and the attempted
list is the full default order ending in the winner. -/
theorem c4_fallback_chain_witness :
    (syncAccountAttempt c4Attempts (fun _ => none) 0 0 1 sampleAccount [] [] []).account.sync_method
      = some "imap_old" ∧
    (syncAccountAttempt c4Attempts (fun _ => none) 0 0 1 sampleAccount [] [] []).account.imap_enabled
      = some true ∧
    (syncAccountAttempt c4Attempts (fun _ => none) 0 0 1 sampleAccount [] [] []).account.graph_enabled
      = sampleAccount.graph_enabled ∧
    (syncAccountAttempt c4Attempts (fun _ => none) 0 0 1 sampleAccount [] [] []).attempted
      = ["graph", "imap_new", "imap_old"] := by
  have h := c4_fallback_chain c4Attempts (fun _ => none) 0 0 1 sampleAccount [] [] []
  have hsome := h.2.2.2.1 "imap_old" (by decide)
  refine ⟨hsome.2.2.1, (hsome.2.2.2.2 (Or.inr rfl)).1, (hsome.2.2.2.2 (Or.inr rfl)).2.1, ?_⟩
  decide

set_option maxRecDepth 8000 in
/-- C6 witness: every protocol fails with message "boom"; the raised error is the
"; "-joined diagnostics behind the CJK prefix. -/
theorem c6_all_protocols_failed_witness :
    (syncAccountAttempt (fun _ => Except.error (FetchError.otherError "boom"))
        (fun _ => none) 0 0 1 sampleAccount [] [] []).raised =
      some "所有协议均失败: graph: boom; imap_new: boom; imap_old: boom" := by
  have h := c6_all_protocols_failed
    (fun _ => Except.error (FetchError.otherError "boom"))
    (fun _ => FetchError.otherError "boom") (fun _ => none) 0 0 1 sampleAccount
    [] [] [] (fun m => rfl)
  rw [h.1]
  rfl

/-! ### Claim theorems: per-account error isolation (C7) -/

lemma processAccount_processed (attemptsOf : Nat → String → Except FetchError FetchSuccess)
    (refreshOf : Nat → Except String TokenData) (pd : String → Option Int) (now : Int)
    (total : Nat) (st : GroupState) (idx : Nat) :
    (processAccount attemptsOf refreshOf pd now total st idx).processed =
      st.processed ++ [idx] := by
  cases hget : st.accounts.get? idx with
  | none => simp only [processAccount, hget]
  | some acct =>
    simp only [processAccount, hget]
    by_cases hok : (maybeRefreshToken now (refreshOf acct.id) acct).ok = true
    · simp only [if_pos hok]
      cases hr : (syncAccountAttempt (attemptsOf acct.id) pd now idx total
          (maybeRefreshToken now (refreshOf acct.id) acct).account
          st.events st.store st.log).raised with
      | some e => simp only [hr]
      | none => simp only [hr]
    · simp only [if_neg hok]

lemma foldl_processed (attemptsOf : Nat → String → Except FetchError FetchSuccess)
    (refreshOf : Nat → Except String TokenData) (pd : String → Option Int) (now : Int)
    (total : Nat) :
    ∀ (idxs : List Nat) (st : GroupState),
      (idxs.foldl (processAccount attemptsOf refreshOf pd now total) st).processed =
        st.processed ++ idxs := by
  intro idxs
  induction idxs with
  | nil => intro st; simp
  | cons i rest ih =>
    intro st
    rw [List.foldl_cons, ih, processAccount_processed]
    simp

/-- C7: an exception raised while syncing one selected account is caught at the
per-account boundary — the account's status becomes "error", last_error is the error
message truncated to 500 characters, an error log entry with the message truncated to
200 characters is appended — the loop appends the account and proceeds; and the batch
function always returns after iterating over every selected index, whatever the
oracles do (it never propagates an exception). -/
theorem c7_per_account_error_isolation
    (attemptsOf : Nat → String → Except FetchError FetchSuccess)
    (refreshOf : Nat → Except String TokenData) (pd : String → Option Int)
    (now : Int) (grp : Group) (dbAccounts : List Account)
    (offsets : List (Nat × Nat)) (events : List (Nat × Int))
    (store : List EmailRecord) (log : List LogEntry) (total : Nat)
    (st : GroupState) (idx : Nat) (acct : Account) (e : String)
    (hget : st.accounts.get? idx = some acct)
    (hok : (maybeRefreshToken now (refreshOf acct.id) acct).ok = true)
    (hraise : (syncAccountAttempt (attemptsOf acct.id) pd now idx total
        (maybeRefreshToken now (refreshOf acct.id) acct).account
        st.events st.store st.log).raised = some e) :
    (processAccount attemptsOf refreshOf pd now total st idx).accounts.get? idx =
        some { (syncAccountAttempt (attemptsOf acct.id) pd now idx total
                  (maybeRefreshToken now (refreshOf acct.id) acct).account
                  st.events st.store st.log).account with
               status := "error", last_error := some (e.take 500) } ∧
    (processAccount attemptsOf refreshOf pd now total st idx).log =
        addLog (syncAccountAttempt (attemptsOf acct.id) pd now idx total
            (maybeRefreshToken now (refreshOf acct.id) acct).account
            st.events st.store st.log).log
          { level := "error", email := acct.email
            message := "同步失败: " ++ e.take 200 } ∧
    (processAccount attemptsOf refreshOf pd now total st idx).processed =
        st.processed ++ [idx] ∧
    (grp.auto_sync = true → (selectGroupAccounts grp.id dbAccounts).length ≠ 0 →
      (syncAccountsForGroup attemptsOf refreshOf pd now grp dbAccounts offsets events
          store log).processed =
        firstDedup ((List.range (if grp.sync_batch_size = 0 then 1
              else grp.sync_batch_size)).map
          (fun i => ((lookupAssoc offsets grp.id).getD 0 %
              (selectGroupAccounts grp.id dbAccounts).length + i) %
            (selectGroupAccounts grp.id dbAccounts).length))) := by
  have hidx : idx < st.accounts.length := by
    rw [List.get?_eq_getElem?] at hget
    exact (List.getElem?_eq_some.mp hget).1
  refine ⟨?_, ?_, processAccount_processed attemptsOf refreshOf pd now total st idx, ?_⟩
  · simp only [processAccount, hget, if_pos hok, hraise]
    rw [List.get?_eq_getElem?]
    exact List.getElem?_set_self (by simpa using hidx)
  · simp only [processAccount, hget, if_pos hok, hraise]
  · intro hauto hne
    have hfalse : ¬grp.auto_sync = false := by rw [hauto]; simp
    simp only [syncAccountsForGroup, if_neg hfalse, if_neg hne]
    rw [foldl_processed]
    simp

/-- Account with a fresh token so the gate passes without refreshing. -/
def c7Acct : Account :=
  { id := 1, email := "a1@example.com", token_expires_at := some 1000000
    group_id := some 10 }

/-- One-account group state for the C7 witness. -/
def c7St : GroupState :=
  { accounts := [c7Acct], events := [], store := [], log := [], processed := [] }

/-- Auto-sync group for the C7 witness. -/
def c7Grp : Group := { id := 10, name := "g", auto_sync := true, sync_batch_size := 1 }

/-- Attempt oracle failing every protocol for every account. -/
def c7AttemptsOf : Nat → String → Except FetchError FetchSuccess :=
  fun _ _ => Except.error (FetchError.otherError "boom")

/-- Refresh oracle (never reached: the token is fresh). -/
def c7RefreshOf : Nat → Except String TokenData := fun _ => Except.error "unused"

/-- The error the all-failed sync attempt raises in the C7 witness scenario. -/
def c7Err : String := "所有协议均失败: graph: boom; imap_new: boom; imap_old: boom"

set_option maxRecDepth 8000 in
/-- C7 witness: one account whose every protocol fails — the loop records the error
on the account, appends it to processed, and the group batch still processes index
0 and returns. -/
theorem c7_per_account_error_isolation_witness :
    (processAccount c7AttemptsOf c7RefreshOf (fun _ => none) 0 1 c7St 0).processed
      = [0] ∧
    (syncAccountsForGroup c7AttemptsOf c7RefreshOf (fun _ => none) 0 c7Grp [c7Acct]
        [] [] [] []).processed = [0] ∧
    (processAccount c7AttemptsOf c7RefreshOf (fun _ => none) 0 1 c7St 0).accounts.get? 0
      = some { (syncAccountAttempt (c7AttemptsOf c7Acct.id) (fun _ => none) 0 0 1
                  (maybeRefreshToken 0 (c7RefreshOf c7Acct.id) c7Acct).account
                  c7St.events c7St.store c7St.log).account with
               status := "error", last_error := some (c7Err.take 500) } := by
  have h := c7_per_account_error_isolation c7AttemptsOf c7RefreshOf (fun _ => none) 0
    c7Grp [c7Acct] [] [] [] [] 1 c7St 0 c7Acct c7Err rfl rfl (by rfl)
  refine ⟨h.2.2.1, ?_, h.1⟩
  rw [h.2.2.2 rfl (by decide)]
  decide

/-! ### Claim theorems: round-robin cursor advancement (C1) -/

lemma mem_firstDedupGo (a : Nat) (l : List Nat) :
    ∀ seen, a ∈ firstDedupGo seen l ↔ a ∈ l ∧ ¬a ∈ seen := by
  induction l with
  | nil => intro seen; simp [firstDedupGo]
  | cons x xs ih =>
    intro seen
    by_cases hx : x ∈ seen
    · rw [firstDedupGo, if_pos hx, ih]
      simp only [List.mem_cons]
      constructor
      · rintro ⟨h2, hs⟩
        exact ⟨Or.inr h2, hs⟩
      · rintro ⟨h1 | h2, hs⟩
        · exact absurd (h1 ▸ hx) hs
        · exact ⟨h2, hs⟩
    · rw [firstDedupGo, if_neg hx]
      simp only [List.mem_cons, ih]
      constructor
      · rintro (rfl | ⟨h2, h3⟩)
        · exact ⟨Or.inl rfl, hx⟩
        · refine ⟨Or.inr h2, ?_⟩
          intro hs
          exact h3 (Or.inr hs)
      · rintro ⟨h1 | h2, hs⟩
        · exact Or.inl h1
        · by_cases hax : a = x
          · exact Or.inl hax
          · refine Or.inr ⟨h2, ?_⟩
            intro hc
            rcases hc with h4 | h4
            · exact hax h4
            · exact hs h4

lemma nodup_firstDedupGo (l : List Nat) :
    ∀ seen, (firstDedupGo seen l).Nodup := by
  induction l with
  | nil => intro seen; simp [firstDedupGo]
  | cons x xs ih =>
    intro seen
    by_cases hx : x ∈ seen
    · rw [firstDedupGo, if_pos hx]
      exact ih _
    · rw [firstDedupGo, if_neg hx]
      refine List.nodup_cons.mpr ⟨?_, ih _⟩
      intro hmem
      exact ((mem_firstDedupGo x xs (x :: seen)).mp hmem).2 (List.mem_cons_self x seen)

lemma length_firstDedup (l : List Nat) : (firstDedup l).length = l.toFinset.card := by
  have h1 : (firstDedup l).toFinset = l.toFinset := by
    ext a
    simp only [List.mem_toFinset, firstDedup, mem_firstDedupGo]
    simp
  have h2 : (firstDedup l).toFinset.card = (firstDedup l).length :=
    List.toFinset_card_of_nodup (nodup_firstDedupGo l [])
  rw [← h2, h1]

lemma card_roundRobin (o t bs : Nat) (ho : o < t) :
    ((List.range bs).map (fun i => (o + i) % t)).toFinset.card = min bs t := by
  have htf : ((List.range bs).map (fun i => (o + i) % t)).toFinset =
      (Finset.range bs).image (fun i => (o + i) % t) := by
    ext a
    simp
  rw [htf]
  rcases le_or_lt bs t with hbt | htb
  · rw [Finset.card_image_of_injOn, Finset.card_range]
    · omega
    · intro i hi j hj hij
      simp only [Finset.coe_range, Set.mem_Iio] at hi hj
      simp only at hij
      have h2 : Nat.ModEq t i j := Nat.ModEq.add_left_cancel' o hij
      have h3 : i % t = j % t := h2
      rwa [Nat.mod_eq_of_lt (lt_of_lt_of_le hi hbt),
        Nat.mod_eq_of_lt (lt_of_lt_of_le hj hbt)] at h3
  · have himg : (Finset.range bs).image (fun i => (o + i) % t) = Finset.range t := by
      apply Finset.Subset.antisymm
      · intro r hr
        simp only [Finset.mem_image, Finset.mem_range] at hr
        obtain ⟨i, _, rfl⟩ := hr
        exact Finset.mem_range.mpr (Nat.mod_lt _ (by omega))
      · intro r hr
        simp only [Finset.mem_range] at hr
        refine Finset.mem_image.mpr ⟨(t - o + r) % t, ?_, ?_⟩
        · exact Finset.mem_range.mpr
            (lt_of_lt_of_le (Nat.mod_lt _ (by omega)) (by omega))
        · show (o + (t - o + r) % t) % t = r
          rw [Nat.add_mod_mod]
          have harith : o + (t - o + r) = t + r := by omega
          rw [harith, Nat.add_mod_left, Nat.mod_eq_of_lt hr]
    rw [himg, Finset.card_range]
    omega

lemma length_uniq (o t bs : Nat) (ho : o < t) :
    (firstDedup ((List.range bs).map (fun i => (o + i) % t))).length = min bs t := by
  rw [length_firstDedup, card_roundRobin o t bs ho]

/-- C1 (amended): after a group batch run with a non-empty population, the cursor
equals (offset + u) mod total where u = min(batch_size, total) is the number of
unique indices actually processed.  This agrees with the claimed
(offset + batch_size) mod total when batch_size ≤ total, but when batch_size exceeds
total the cursor stays at offset (u = total), not at (offset + batch_size) mod
total. -/
theorem c1_cursor_advance (attemptsOf : Nat → String → Except FetchError FetchSuccess)
    (refreshOf : Nat → Except String TokenData) (pd : String → Option Int)
    (now : Int) (grp : Group) (dbAccounts : List Account)
    (offsets : List (Nat × Nat)) (events : List (Nat × Int))
    (store : List EmailRecord) (log : List LogEntry)
    (hauto : grp.auto_sync = true)
    (hne : (selectGroupAccounts grp.id dbAccounts).length ≠ 0) :
    lookupAssoc (syncAccountsForGroup attemptsOf refreshOf pd now grp dbAccounts
        offsets events store log).offsets grp.id =
      some ((((lookupAssoc offsets grp.id).getD 0 %
            (selectGroupAccounts grp.id dbAccounts).length) +
          min (if grp.sync_batch_size = 0 then 1 else grp.sync_batch_size)
            (selectGroupAccounts grp.id dbAccounts).length) %
        (selectGroupAccounts grp.id dbAccounts).length) := by
  have hfalse : ¬grp.auto_sync = false := by rw [hauto]; simp
  simp only [syncAccountsForGroup, if_neg hfalse, if_neg hne]
  rw [lookupAssoc_updateAssoc, if_pos rfl, length_uniq]
  exact Nat.mod_lt _ (Nat.pos_of_ne_zero hne)

/-- Two-account population for the C1 concrete run. -/
def c1Db : List Account :=
  [ { id := 1, email := "a1@example.com", group_id := some 10 },
    { id := 2, email := "a2@example.com", group_id := some 10 } ]

/-- Group of the C1 concrete run: batch_size 3 exceeds the population of 2. -/
def c1Grp : Group := { id := 10, name := "g", auto_sync := true, sync_batch_size := 3 }

set_option maxRecDepth 8000 in
/-- C1 counterexample: population 2, batch_size 3, cursor 0.  The claim predicts the
cursor becomes (0 + 3) mod 2 = 1 after the run; the code advances by the number of
unique indices (2), leaving the cursor at 0. -/
theorem c1_counterexample :
    lookupAssoc (syncAccountsForGroup c7AttemptsOf c7RefreshOf (fun _ => none) 0
        c1Grp c1Db [] [] [] []).offsets 10 = some 0 ∧
    (0 + c1Grp.sync_batch_size) % (selectGroupAccounts 10 c1Db).length = 1 := by
  exact ⟨by decide, by decide⟩

set_option maxRecDepth 8000 in
/-- C1 witness: the amended cursor formula evaluated on the concrete run —
(0 + min 3 2) mod 2 = 0. -/
theorem c1_cursor_advance_witness :
    lookupAssoc (syncAccountsForGroup c7AttemptsOf c7RefreshOf (fun _ => none) 0
        c1Grp c1Db [] [] [] []).offsets 10 =
      some ((0 + min 3 2) % 2) := by
  have h := c1_cursor_advance c7AttemptsOf c7RefreshOf (fun _ => none) 0 c1Grp c1Db
    [] [] [] [] rfl (by decide)
  exact h

end OM
